import Mathlib

/-!
Shallow embedding of `pyudev/core.py`: the `Context` and `Enumerator` classes,
their filter-accumulation methods, and the iteration protocol.

Byte strings and unicode strings of the Python code are both modelled as Lean
`String`s (UTF-8 encoding is the identity under this identification).  Calls
into the native `libudev` library are modelled as a trace of `NativeCall`
values emitted by each operation, and the semantics the native layer gives to
the accumulated match predicates is modelled from the specification (the
binding module `pyudev/_libudev.py` and the helper module `pyudev/_util.py`
are not part of the sources at hand).
-/

/-- The udev context of `pyudev.core.Context`: it owns one native registry
handle, modelled by the opaque number `handle` (the `_as_parameter_`
attribute). -/
structure Context where
  handle : Nat
deriving DecidableEq, Repr

/-- A Python value, covering the argument kinds the filter methods accept:
`None`, booleans, integers, byte strings, text strings, `Device` objects
(identified by their sys path) and `Context` objects. -/
inductive PyVal where
  | vnone
  | vbool (b : Bool)
  | vint (n : Int)
  | vbytes (s : String)
  | vstr (s : String)
  | vdevice (syspath : String)
  | vcontext (c : Context)
deriving DecidableEq, Repr

/-- Modelled from the spec: `ensure_byte_string` of the utility module absent
from the sources — text arguments are encoded via a consistent text encoding
(the identity under the byte-string-as-String model), byte arguments pass
through unchanged. -/
def ensure_byte_string : PyVal → String
  | .vbytes s => s
  | .vstr s => s
  | _ => ""

/-- Modelled from the spec: `property_value_to_bytes` of the utility module
absent from the sources — booleans normalize to the registry truth tokens
`1`/`0`, integers render as decimal text, byte strings pass through, and
everything else is converted via its text representation. -/
def property_value_to_bytes : PyVal → String
  | .vbool true => "1"
  | .vbool false => "0"
  | .vint n => toString n
  | .vbytes s => s
  | .vstr s => s
  | .vnone => "None"
  | .vdevice p => p
  | .vcontext _ => ""

/-- The sys path carried by a `Device` argument (`match_parent` hands the
device straight to the native layer, which keys on its sys path). -/
def devicePath : PyVal → String
  | .vdevice p => p
  | _ => ""

/-- A match predicate appended to the native enumerator's match list: one
constructor per `udev_enumerate_add_match_*` entry point used in
`pyudev/core.py` (`sysattr` is the native name backing `match_attribute`). -/
inductive Predicate where
  | subsystem (name : String)
  | sys_name (name : String)
  | property (key value : String)
  | sysattr (key value : String)
  | tag (name : String)
  | is_initialized
  | parent (syspath : String)
deriving DecidableEq, Repr

/-- The kind of a predicate, the granularity at which the native layer
combines predicates (OR within a kind, AND across kinds). -/
inductive PredKind where
  | subsystem
  | sys_name
  | property
  | sysattr
  | tag
  | is_initialized
  | parent
deriving DecidableEq, Repr

/-- Kind of each predicate. -/
def Predicate.kind : Predicate → PredKind
  | .subsystem _ => .subsystem
  | .sys_name _ => .sys_name
  | .property _ _ => .property
  | .sysattr _ _ => .sysattr
  | .tag _ => .tag
  | .is_initialized => .is_initialized
  | .parent _ => .parent

/-- The enumerator of `pyudev.core.Enumerator`: it keeps a reference to its
`Context` and (through its native handle) the ordered, append-only list of
match predicates registered so far. -/
structure Enumerator where
  context : Context
  filters : List Predicate
deriving DecidableEq, Repr

/-- `Enumerator.match_subsystem`: append a subsystem predicate (the argument
normalized by `ensure_byte_string`) and return the instance. -/
def Enumerator.match_subsystem (e : Enumerator) (subsystem : PyVal) : Enumerator :=
  { e with filters := e.filters ++ [.subsystem (ensure_byte_string subsystem)] }

/-- `Enumerator.match_sys_name`: append a sys-name predicate and return the
instance. -/
def Enumerator.match_sys_name (e : Enumerator) (sys_name : PyVal) : Enumerator :=
  { e with filters := e.filters ++ [.sys_name (ensure_byte_string sys_name)] }

/-- `Enumerator.match_property`: append a property predicate, the name
normalized by `ensure_byte_string` and the value by
`property_value_to_bytes`; return the instance. -/
def Enumerator.match_property (e : Enumerator) (property value : PyVal) : Enumerator :=
  { e with filters := e.filters ++
      [.property (ensure_byte_string property) (property_value_to_bytes value)] }

/-- `Enumerator.match_attribute`: append a sysattr predicate, with the same
normalization as `match_property`; return the instance. -/
def Enumerator.match_attribute (e : Enumerator) (attr value : PyVal) : Enumerator :=
  { e with filters := e.filters ++
      [.sysattr (ensure_byte_string attr) (property_value_to_bytes value)] }

/-- `Enumerator.match_tag`: append a tag predicate and return the instance. -/
def Enumerator.match_tag (e : Enumerator) (tag : PyVal) : Enumerator :=
  { e with filters := e.filters ++ [.tag (ensure_byte_string tag)] }

/-- `Enumerator.match_is_initialized`: append the initialized-only predicate
and return the instance. -/
def Enumerator.match_is_initialized (e : Enumerator) : Enumerator :=
  { e with filters := e.filters ++ [.is_initialized] }

/-- `Enumerator.match_parent`: append a parent-subtree predicate (the device
is handed over unencoded; it is identified by its sys path) and return the
instance. -/
def Enumerator.match_parent (e : Enumerator) (parent : PyVal) : Enumerator :=
  { e with filters := e.filters ++ [.parent (devicePath parent)] }

/-- Python's `kwargs.pop(key, None)`: the value stored under `key` (or `None`
when absent) together with the dictionary without that key.  Keyword
dictionaries are modelled as association lists with distinct keys. -/
def dictPop (kwargs : List (String × PyVal)) (key : String) :
    PyVal × List (String × PyVal) :=
  match kwargs.lookup key with
  | some v => (v, kwargs.filter fun p => p.1 != key)
  | none => (.vnone, kwargs)

/-- `Enumerator.match` (`match` is reserved in Lean, hence the prime): pop
`subsystem`, `sys_name`, `tag` and `parent` in this order, forwarding each
non-`None` value to the corresponding single-purpose filter method, then
forward every remaining keyword to `match_property`. -/
def Enumerator.match' (e : Enumerator) (kwargs : List (String × PyVal)) : Enumerator :=
  let p1 := dictPop kwargs "subsystem"
  let e1 := if p1.1 ≠ PyVal.vnone then e.match_subsystem p1.1 else e
  let p2 := dictPop p1.2 "sys_name"
  let e2 := if p2.1 ≠ PyVal.vnone then e1.match_sys_name p2.1 else e1
  let p3 := dictPop p2.2 "tag"
  let e3 := if p3.1 ≠ PyVal.vnone then e2.match_tag p3.1 else e2
  let p4 := dictPop p3.2 "parent"
  let e4 := if p4.1 ≠ PyVal.vnone then e3.match_parent p4.1 else e3
  p4.2.foldl (fun acc p => acc.match_property (PyVal.vstr p.1) p.2) e4

example :
    ((Enumerator.mk ⟨0⟩ []).match'
        [("subsystem", .vstr "block"), ("ID_TYPE", .vstr "disk")]).filters
      = [.subsystem "block", .property "ID_TYPE" "disk"] := by decide

example : ((Enumerator.mk ⟨0⟩ []).match' [("subsystem", .vnone)]).filters = [] := by
  decide

/-- A device as the registry knows it: its sys path, subsystem, sys name,
properties, sysfs attributes, tags and initialization state (modelled from
the spec's data model; the `Device` class lives outside `pyudev/core.py`). -/
structure Device where
  syspath : String
  subsystem : String
  sysname : String
  properties : List (String × String)
  sysattrs : List (String × String)
  tags : List String
  initialized : Bool
deriving DecidableEq, Repr

/-- Modelled from the spec: whether one predicate matches a device (the
per-predicate semantics the native layer implements).  A parent predicate
matches the parent device itself and every device whose sys path is a
descendant path. -/
def matchesPred (d : Device) : Predicate → Bool
  | .subsystem s => d.subsystem == s
  | .sys_name n => d.sysname == n
  | .property k v => d.properties.lookup k == some v
  | .sysattr k v => d.sysattrs.lookup k == some v
  | .tag t => d.tags.contains t
  | .is_initialized => d.initialized
  | .parent p => d.syspath == p || d.syspath.startsWith (p ++ "/")

/-- Modelled from the spec: the boolean combination rule of the native
match-list semantics — predicates of the same kind are combined with logical
OR, predicates of different kinds with logical AND.  A device matches when,
for every kind occurring in the list, some predicate of that kind matches. -/
def matchesFilters (ps : List Predicate) (d : Device) : Bool :=
  (ps.map Predicate.kind).all fun k =>
    (ps.filter fun p => p.kind == k).any fun p => matchesPred d p

/-- The native registry state visible to a scan: the devices currently known
to the system. -/
structure Registry where
  devices : List Device
deriving DecidableEq, Repr

/-- Modelled from the spec: the result list a native scan computes — the
registry's devices restricted to those matching the accumulated filters. -/
def scanResult (reg : Registry) (ps : List Predicate) : List Device :=
  reg.devices.filter fun d => matchesFilters ps d

/-- One call into the native `libudev` library, as issued by the lifecycle
and iteration code of `pyudev/core.py` (`from_sys_path` stands for the device
resolution performed for each yielded entry). -/
inductive NativeCall where
  | udev_new
  | udev_unref
  | udev_enumerate_new
  | udev_enumerate_unref
  | udev_enumerate_scan_devices
  | udev_enumerate_get_list_entry
  | from_sys_path (syspath : String)
deriving DecidableEq, Repr

/-- A Python exception raised by the core. -/
inductive PyError where
  | typeError
deriving DecidableEq, Repr

/-- `Context.__init__`: acquire a new native registry reference
(`udev_new`); the fresh handle is the constructor's argument in this model. -/
def Context_init (handle : Nat) : List NativeCall × Context :=
  ([.udev_new], ⟨handle⟩)

/-- `Context.__del__`: release the registry reference (`udev_unref`). -/
def Context_del (_c : Context) : List NativeCall :=
  [.udev_unref]

/-- `Enumerator.__init__`: check `isinstance(context, Context)` first and
raise `TypeError` before anything else happens; only for a genuine `Context`
acquire the native enumeration handle (`udev_enumerate_new`) and set the
attributes. -/
def Enumerator_init (context : PyVal) : List NativeCall × Except PyError Enumerator :=
  match context with
  | .vcontext c => ([.udev_enumerate_new], .ok ⟨c, []⟩)
  | _ => ([], .error .typeError)

/-- `Enumerator.__del__`: release the enumeration reference
(`udev_enumerate_unref`). -/
def Enumerator_del (_e : Enumerator) : List NativeCall :=
  [.udev_enumerate_unref]

/-- `Enumerator.__iter__` run to exhaustion against a registry: trigger the
native scan, retrieve the head of the result list, then resolve each entry's
sys path to a device.  Returns the native-call trace alongside the yielded
devices. -/
def Enumerator_iter (e : Enumerator) (reg : Registry) : List NativeCall × List Device :=
  (NativeCall.udev_enumerate_scan_devices ::
     NativeCall.udev_enumerate_get_list_entry ::
     (scanResult reg e.filters).map (fun d => NativeCall.from_sys_path d.syspath),
   scanResult reg e.filters)

/-- `Context.list_devices`: construct an `Enumerator` bound to this context
and forward the keyword arguments to its `match` method. -/
def Context.list_devices (c : Context) (kwargs : List (String × PyVal)) :
    Except PyError Enumerator :=
  (Enumerator_init (PyVal.vcontext c)).2.map fun e => e.match' kwargs

/-!
Python objects live on a heap and methods receive and return references.  To
state that each filter method returns the very instance it was called on, the
heap is modelled as a map from object identities to enumerator states, and
each method as a heap transformer returning the reference of the object it
hands back to the caller.
-/

/-- A heap of enumerator objects, indexed by object identity. -/
def Heap : Type := Nat → Enumerator

/-- Overwrite the object stored at identity `i`. -/
def updateHeap (h : Heap) (i : Nat) (e : Enumerator) : Heap :=
  fun j => if j = i then e else h j

/-- `match` as a heap transformer: mutate `self` in place, return a
reference. -/
def heapMatch (h : Heap) (self : Nat) (kwargs : List (String × PyVal)) : Heap × Nat :=
  (updateHeap h self ((h self).match' kwargs), self)

/-- `match_subsystem` as a heap transformer. -/
def heapMatchSubsystem (h : Heap) (self : Nat) (subsystem : PyVal) : Heap × Nat :=
  (updateHeap h self ((h self).match_subsystem subsystem), self)

/-- `match_sys_name` as a heap transformer. -/
def heapMatchSysName (h : Heap) (self : Nat) (sys_name : PyVal) : Heap × Nat :=
  (updateHeap h self ((h self).match_sys_name sys_name), self)

/-- `match_property` as a heap transformer. -/
def heapMatchProperty (h : Heap) (self : Nat) (property value : PyVal) : Heap × Nat :=
  (updateHeap h self ((h self).match_property property value), self)

/-- `match_attribute` as a heap transformer. -/
def heapMatchAttribute (h : Heap) (self : Nat) (attr value : PyVal) : Heap × Nat :=
  (updateHeap h self ((h self).match_attribute attr value), self)

/-- `match_tag` as a heap transformer. -/
def heapMatchTag (h : Heap) (self : Nat) (tag : PyVal) : Heap × Nat :=
  (updateHeap h self ((h self).match_tag tag), self)

/-- `match_is_initialized` as a heap transformer. -/
def heapMatchIsInitialized (h : Heap) (self : Nat) : Heap × Nat :=
  (updateHeap h self ((h self).match_is_initialized), self)

/-- `match_parent` as a heap transformer. -/
def heapMatchParent (h : Heap) (self : Nat) (parent : PyVal) : Heap × Nat :=
  (updateHeap h self ((h self).match_parent parent), self)

/-!
Specification-side description of `match`'s keyword routing, to be compared
with the embedded `Enumerator.match'`.
-/

/-- The predicate contributed by one recognized keyword of `match`: the
predicate built from its value when the keyword is present with a
non-`None` value, nothing otherwise. -/
def keyFilter (kwargs : List (String × PyVal)) (key : String)
    (mk : PyVal → Predicate) : List Predicate :=
  match kwargs.lookup key with
  | some v => if v ≠ PyVal.vnone then [mk v] else []
  | none => []

/-- Written from the spec's description of `match`: the predicates the call
appends — `subsystem`, then `sys_name`, then `tag`, then `parent`, then one
property predicate per remaining keyword, in dictionary order. -/
def routedFilters (kwargs : List (String × PyVal)) : List Predicate :=
  keyFilter kwargs "subsystem" (fun v => .subsystem (ensure_byte_string v))
    ++ keyFilter kwargs "sys_name" (fun v => .sys_name (ensure_byte_string v))
    ++ keyFilter kwargs "tag" (fun v => .tag (ensure_byte_string v))
    ++ keyFilter kwargs "parent" (fun v => .parent (devicePath v))
    ++ (((((kwargs.filter fun p => p.1 != "subsystem").filter
            fun p => p.1 != "sys_name").filter
            fun p => p.1 != "tag").filter
            fun p => p.1 != "parent").map
          fun p => .property p.1 (property_value_to_bytes p.2))

example :
    routedFilters [("ID_TYPE", .vstr "disk"), ("subsystem", .vstr "block")]
      = [.subsystem "block", .property "ID_TYPE" "disk"] := by decide

/-! Helper lemmas about dictionaries and the filter methods. -/

theorem Enumerator.eta (e : Enumerator) : Enumerator.mk e.context e.filters = e := rfl

theorem lookup_none_filter (k : String) :
    ∀ kw : List (String × PyVal), kw.lookup k = none →
      (kw.filter fun p => p.1 != k) = kw := by
  intro kw
  induction kw with
  | nil => intro _; rfl
  | cons a tl ih =>
    obtain ⟨x, v⟩ := a
    intro h
    rw [List.lookup_cons] at h
    by_cases hx : k = x
    · subst hx; simp at h
    · have hb : (k == x) = false := beq_false_of_ne hx
      rw [hb] at h
      have hxk : ((x, v).1 != k) = true := by
        simp only [bne_iff_ne, ne_eq]
        exact fun e => hx e.symm
      rw [List.filter_cons, hxk]
      simp [ih h]

theorem lookup_filter_ne (k k' : String) (h : k' ≠ k) :
    ∀ kw : List (String × PyVal),
      (kw.filter fun p => p.1 != k).lookup k' = kw.lookup k' := by
  intro kw
  induction kw with
  | nil => rfl
  | cons a tl ih =>
    obtain ⟨x, v⟩ := a
    by_cases hx : x = k
    · subst hx
      have hnk : ((x, v).1 != x) = false := by simp
      rw [List.filter_cons, hnk]
      simp only [ite_false, Bool.false_eq_true, if_neg]
      rw [ih, List.lookup_cons]
      have hk' : (k' == x) = false := beq_false_of_ne h
      rw [hk']
    · have hxk : ((x, v).1 != k) = true := by simpa using hx
      rw [List.filter_cons, hxk]
      simp only [if_pos]
      rw [List.lookup_cons, List.lookup_cons, ih]

theorem dictPop_fst (kw : List (String × PyVal)) (k : String) :
    (dictPop kw k).1 = (kw.lookup k).getD PyVal.vnone := by
  unfold dictPop
  cases h : kw.lookup k <;> simp [h]

theorem dictPop_snd (kw : List (String × PyVal)) (k : String) :
    (dictPop kw k).2 = kw.filter fun p => p.1 != k := by
  unfold dictPop
  cases h : kw.lookup k with
  | none => simp [h, lookup_none_filter k kw h]
  | some v => simp [h]

theorem keyFilter_filter (kw : List (String × PyVal)) (k k' : String)
    (mk : PyVal → Predicate) (h : k' ≠ k) :
    keyFilter (kw.filter fun p => p.1 != k) k' mk = keyFilter kw k' mk := by
  unfold keyFilter
  rw [lookup_filter_ne k k' h kw]

theorem ite_match_step (e : Enumerator) (kw : List (String × PyVal)) (k : String)
    (mk : PyVal → Predicate) (mth : Enumerator → PyVal → Enumerator)
    (hm : ∀ (e : Enumerator) v, mth e v = ⟨e.context, e.filters ++ [mk v]⟩) :
    (if (dictPop kw k).1 ≠ PyVal.vnone then mth e (dictPop kw k).1 else e)
      = ⟨e.context, e.filters ++ keyFilter kw k mk⟩ := by
  rw [dictPop_fst]
  unfold keyFilter
  cases h : kw.lookup k with
  | none => simp [Enumerator.eta]
  | some v =>
    by_cases hv : v = PyVal.vnone
    · subst hv; simp [Enumerator.eta]
    · simp [hv, hm]

theorem foldl_match_property (kws : List (String × PyVal)) :
    ∀ e : Enumerator,
      kws.foldl (fun acc p => acc.match_property (PyVal.vstr p.1) p.2) e
        = ⟨e.context, e.filters ++
            kws.map fun p => .property p.1 (property_value_to_bytes p.2)⟩ := by
  induction kws with
  | nil => intro e; simp [Enumerator.eta]
  | cons a tl ih =>
    intro e
    rw [List.foldl_cons, ih]
    simp [Enumerator.match_property, ensure_byte_string]

theorem match'_eq (e : Enumerator) (kw : List (String × PyVal)) :
    e.match' kw = ⟨e.context, e.filters ++ routedFilters kw⟩ := by
  simp only [Enumerator.match']
  rw [ite_match_step e kw "subsystem"
      (fun v => .subsystem (ensure_byte_string v)) Enumerator.match_subsystem
      (fun _ _ => rfl)]
  rw [dictPop_snd kw "subsystem"]
  rw [ite_match_step _ _ "sys_name"
      (fun v => .sys_name (ensure_byte_string v)) Enumerator.match_sys_name
      (fun _ _ => rfl)]
  rw [dictPop_snd _ "sys_name"]
  rw [ite_match_step _ _ "tag"
      (fun v => .tag (ensure_byte_string v)) Enumerator.match_tag
      (fun _ _ => rfl)]
  rw [dictPop_snd _ "tag"]
  rw [ite_match_step _ _ "parent"
      (fun v => .parent (devicePath v)) Enumerator.match_parent
      (fun _ _ => rfl)]
  rw [dictPop_snd _ "parent"]
  rw [foldl_match_property]
  unfold routedFilters
  rw [keyFilter_filter _ "subsystem" "sys_name" _ (by decide)]
  rw [keyFilter_filter _ "sys_name" "tag" _ (by decide),
    keyFilter_filter _ "subsystem" "tag" _ (by decide)]
  rw [keyFilter_filter _ "tag" "parent" _ (by decide),
    keyFilter_filter _ "sys_name" "parent" _ (by decide),
    keyFilter_filter _ "subsystem" "parent" _ (by decide)]
  simp [List.append_assoc]

theorem lookup_cons_self (k : String) (v : PyVal) (kw : List (String × PyVal)) :
    ((k, v) :: kw).lookup k = some v := by
  rw [List.lookup_cons]
  simp

theorem lookup_cons_ne (key k : String) (v : PyVal) (kw : List (String × PyVal))
    (h : key ≠ k) : ((k, v) :: kw).lookup key = kw.lookup key := by
  rw [List.lookup_cons, beq_false_of_ne h]

theorem lookup_eq_none_of_keys_ne (k : String) :
    ∀ kw : List (String × PyVal), (∀ p ∈ kw, p.1 ≠ k) → kw.lookup k = none := by
  intro kw
  induction kw with
  | nil => intro _; rfl
  | cons a tl ih =>
    intro h
    obtain ⟨x, v⟩ := a
    rw [lookup_cons_ne k x v tl (fun e => h (x, v) (List.mem_cons_self _ _) e.symm)]
    exact ih fun p hp => h p (List.mem_cons_of_mem _ hp)

theorem keyFilter_cons_ne (key k : String) (v : PyVal)
    (kw : List (String × PyVal)) (mk : PyVal → Predicate) (h : key ≠ k) :
    keyFilter ((k, v) :: kw) key mk = keyFilter kw key mk := by
  unfold keyFilter
  rw [lookup_cons_ne key k v kw h]

theorem keyFilter_cons_self_none (k : String) (kw : List (String × PyVal))
    (mk : PyVal → Predicate) :
    keyFilter ((k, PyVal.vnone) :: kw) k mk = [] := by
  unfold keyFilter
  rw [lookup_cons_self]
  simp

theorem keyFilter_none (k : String) (kw : List (String × PyVal))
    (mk : PyVal → Predicate) (h : ∀ p ∈ kw, p.1 ≠ k) :
    keyFilter kw k mk = [] := by
  unfold keyFilter
  rw [lookup_eq_none_of_keys_ne k kw h]

theorem filter_cons_keep (k key : String) (v : PyVal) (kw : List (String × PyVal))
    (h : (k != key) = true) :
    (((k, v) :: kw).filter fun p => p.1 != key)
      = (k, v) :: kw.filter fun p => p.1 != key := by
  rw [List.filter_cons, if_pos h]

theorem filter_cons_drop (k : String) (v : PyVal) (kw : List (String × PyVal)) :
    (((k, v) :: kw).filter fun p => p.1 != k) = kw.filter fun p => p.1 != k := by
  rw [List.filter_cons, if_neg (by simp)]

theorem routedFilters_cons_none (k : String) (kw : List (String × PyVal))
    (hk : k ∈ ["subsystem", "sys_name", "tag", "parent"])
    (h : ∀ p ∈ kw, p.1 ≠ k) :
    routedFilters ((k, PyVal.vnone) :: kw) = routedFilters kw := by
  simp only [List.mem_cons, List.mem_singleton, List.not_mem_nil, or_false] at hk
  unfold routedFilters
  rcases hk with rfl | rfl | rfl | rfl
  · rw [keyFilter_cons_self_none, keyFilter_none _ kw _ h,
      keyFilter_cons_ne "sys_name" _ _ _ _ (by decide),
      keyFilter_cons_ne "tag" _ _ _ _ (by decide),
      keyFilter_cons_ne "parent" _ _ _ _ (by decide),
      filter_cons_drop]
  · rw [keyFilter_cons_self_none, keyFilter_none _ kw _ h,
      keyFilter_cons_ne "subsystem" _ _ _ _ (by decide),
      keyFilter_cons_ne "tag" _ _ _ _ (by decide),
      keyFilter_cons_ne "parent" _ _ _ _ (by decide),
      filter_cons_keep _ _ _ _ (by decide), filter_cons_drop]
  · rw [keyFilter_cons_self_none, keyFilter_none _ kw _ h,
      keyFilter_cons_ne "subsystem" _ _ _ _ (by decide),
      keyFilter_cons_ne "sys_name" _ _ _ _ (by decide),
      keyFilter_cons_ne "parent" _ _ _ _ (by decide),
      filter_cons_keep _ _ _ _ (by decide), filter_cons_keep _ _ _ _ (by decide),
      filter_cons_drop]
  · rw [keyFilter_cons_self_none, keyFilter_none _ kw _ h,
      keyFilter_cons_ne "subsystem" _ _ _ _ (by decide),
      keyFilter_cons_ne "sys_name" _ _ _ _ (by decide),
      keyFilter_cons_ne "tag" _ _ _ _ (by decide),
      filter_cons_keep _ _ _ _ (by decide), filter_cons_keep _ _ _ _ (by decide),
      filter_cons_keep _ _ _ _ (by decide), filter_cons_drop]

/-! Claim theorems. -/

/-- C1: the device set produced by iteration combines predicates of the same
kind with logical OR and predicates of different kinds with logical AND — in
general a device is yielded iff, for every predicate kind present, some
predicate of that kind matches it; in particular the filters
`subsystem="block"`, `property ID_TYPE="disk"`, `property DEVTYPE="disk"`
yield exactly the devices with
`subsystem=="block" AND (ID_TYPE=="disk" OR DEVTYPE=="disk")`. -/
theorem c1_or_within_kind_and_across_kinds :
    (∀ (ps : List Predicate) (reg : Registry) (d : Device),
        d ∈ scanResult reg ps ↔
          d ∈ reg.devices ∧
            ∀ k ∈ ps.map Predicate.kind,
              ∃ p ∈ ps, p.kind = k ∧ matchesPred d p = true) ∧
    (∀ (c : Context) (reg : Registry) (d : Device),
        d ∈ (Enumerator_iter
              ((((Enumerator.mk c []).match_subsystem (.vstr "block")).match_property
                  (.vstr "ID_TYPE") (.vstr "disk")).match_property
                  (.vstr "DEVTYPE") (.vstr "disk")) reg).2 ↔
          d ∈ reg.devices ∧
            (d.subsystem = "block" ∧
              (d.properties.lookup "ID_TYPE" = some "disk" ∨
               d.properties.lookup "DEVTYPE" = some "disk"))) := by
  constructor
  · intro ps reg d
    unfold scanResult
    rw [List.mem_filter]
    apply and_congr_right
    intro _
    unfold matchesFilters
    simp [List.all_eq_true, List.any_eq_true, List.mem_filter]
  · intro c reg d
    have hf : ((((Enumerator.mk c []).match_subsystem (.vstr "block")).match_property
          (.vstr "ID_TYPE") (.vstr "disk")).match_property
          (.vstr "DEVTYPE") (.vstr "disk")).filters
        = [.subsystem "block", .property "ID_TYPE" "disk",
           .property "DEVTYPE" "disk"] := rfl
    show d ∈ scanResult reg _ ↔ _
    unfold scanResult
    rw [hf, List.mem_filter]
    apply and_congr_right
    intro _
    cases ha : d.subsystem == "block" <;>
      cases hb : d.properties.lookup "ID_TYPE" == some "disk" <;>
        cases hc : d.properties.lookup "DEVTYPE" == some "disk" <;>
          simp_all [matchesFilters, matchesPred, Predicate.kind]

/-- C2: every call to `Enumerator.match` routes the recognized keywords
`subsystem`, `sys_name`, `tag` and `parent` to `match_subsystem`,
`match_sys_name`, `match_tag` and `match_parent` in that order, and forwards
every other keyword to `match_property` with the keyword as property name and
its value as property value: the predicates appended are exactly
`routedFilters kwargs`. -/
theorem c2_match_keyword_routing (e : Enumerator) (kwargs : List (String × PyVal)) :
    e.match' kwargs = ⟨e.context, e.filters ++ routedFilters kwargs⟩ :=
  match'_eq e kwargs

/-- C3: `Enumerator.match` called with no keyword arguments is a no-op — the
enumerator is unchanged (no predicate appended, no state change, no error)
and iterating it yields the same devices as an enumerator to which no filter
was ever applied. -/
theorem c3_match_no_kwargs_noop (e : Enumerator) (reg : Registry) :
    e.match' [] = e ∧ Enumerator_iter (e.match' []) reg = Enumerator_iter e reg := by
  have h : e.match' [] = e := by
    rw [match'_eq]
    simp [routedFilters, keyFilter, Enumerator.eta]
  exact ⟨h, by rw [h]⟩

/-- C4: `Context.list_devices` constructs a new `Enumerator` bound to this
context, applies `match` with the given keyword arguments to it and returns
it — it is observationally equal to `Enumerator(context).match(**kwargs)`. -/
theorem c4_list_devices_is_enumerator_match (c : Context)
    (kwargs : List (String × PyVal)) :
    c.list_devices kwargs = Except.ok ((Enumerator.mk c []).match' kwargs) ∧
    c.list_devices kwargs
      = (Enumerator_init (PyVal.vcontext c)).2.map fun e => e.match' kwargs :=
  ⟨rfl, rfl⟩

/-- C5: constructing `Enumerator(argument)` for any argument that is not a
`Context` raises `TypeError` immediately, with an empty native-call trace (no
enumeration handle acquired) and no constructed object. -/
theorem c5_init_type_error (arg : PyVal)
    (h : ∀ c : Context, arg ≠ PyVal.vcontext c) :
    Enumerator_init arg = ([], .error .typeError) := by
  cases arg <;> first | rfl | exact absurd rfl (h _)

/-- C5 witness: the constructor applied to the integer `0`. -/
theorem c5_init_type_error_witness :
    Enumerator_init (PyVal.vint 0) = ([], .error .typeError) :=
  c5_init_type_error (PyVal.vint 0) (fun _ h => PyVal.noConfusion h)

/-- C7: `match_property` and `match_attribute` normalize the value through
the same `property_value_to_bytes` conversion, under which boolean, integer,
byte-string and text representations of the same logical value yield the same
byte string (`True`, `"1"` and `1` normalize identically). -/
theorem c7_value_normalization (e : Enumerator) (k v : PyVal) :
    ((e.match_property k v).filters
        = e.filters ++ [.property (ensure_byte_string k) (property_value_to_bytes v)] ∧
     (e.match_attribute k v).filters
        = e.filters ++ [.sysattr (ensure_byte_string k) (property_value_to_bytes v)]) ∧
    (property_value_to_bytes (.vbool true) = property_value_to_bytes (.vstr "1") ∧
     property_value_to_bytes (.vbool true) = property_value_to_bytes (.vint 1) ∧
     property_value_to_bytes (.vbool false) = property_value_to_bytes (.vstr "0") ∧
     property_value_to_bytes (.vbool false) = property_value_to_bytes (.vint 0) ∧
     (∀ n : Int, property_value_to_bytes (.vint n)
        = property_value_to_bytes (.vstr (toString n))) ∧
     (∀ s : String, property_value_to_bytes (.vbytes s)
        = property_value_to_bytes (.vstr s))) := by
  refine ⟨⟨rfl, rfl⟩, by decide, by decide, by decide, by decide,
    fun n => rfl, fun s => rfl⟩

/-- C8: every filter-adding method returns the very enumerator instance it
was called on — as heap transformers, all of them return the reference of
their receiver. -/
theorem c8_filter_methods_return_self (h : Heap) (self : Nat)
    (kwargs : List (String × PyVal)) (a b : PyVal) :
    (heapMatch h self kwargs).2 = self ∧
    (heapMatchSubsystem h self a).2 = self ∧
    (heapMatchSysName h self a).2 = self ∧
    (heapMatchProperty h self a b).2 = self ∧
    (heapMatchAttribute h self a b).2 = self ∧
    (heapMatchTag h self a).2 = self ∧
    (heapMatchIsInitialized h self).2 = self ∧
    (heapMatchParent h self a).2 = self :=
  ⟨rfl, rfl, rfl, rfl, rfl, rfl, rfl, rfl⟩

/-- C9: over its lifecycle a `Context` acquires exactly one registry
reference (`udev_new`) and releases exactly one (`udev_unref`); an
`Enumerator` acquires exactly one enumeration reference
(`udev_enumerate_new`) and releases exactly one (`udev_enumerate_unref`),
and its lifecycle performs no `udev_unref` — destroying an enumerator does
not release its context's registry reference. -/
theorem c9_one_native_reference_per_object (handle : Nat) (c : Context) :
    (((Context_init handle).1 ++ Context_del (Context_init handle).2).count
        NativeCall.udev_new = 1 ∧
     ((Context_init handle).1 ++ Context_del (Context_init handle).2).count
        NativeCall.udev_unref = 1) ∧
    Enumerator_init (PyVal.vcontext c)
      = ([NativeCall.udev_enumerate_new], .ok ⟨c, []⟩) ∧
    (((Enumerator_init (PyVal.vcontext c)).1 ++ Enumerator_del ⟨c, []⟩).count
        NativeCall.udev_enumerate_new = 1 ∧
     ((Enumerator_init (PyVal.vcontext c)).1 ++ Enumerator_del ⟨c, []⟩).count
        NativeCall.udev_enumerate_unref = 1 ∧
     ((Enumerator_init (PyVal.vcontext c)).1 ++ Enumerator_del ⟨c, []⟩).count
        NativeCall.udev_unref = 0 ∧
     ((Enumerator_init (PyVal.vcontext c)).1 ++ Enumerator_del ⟨c, []⟩).count
        NativeCall.udev_new = 0) := by
  refine ⟨⟨rfl, rfl⟩, rfl, rfl, rfl, rfl, rfl⟩

/-- C10: for each recognized keyword of `match` (`subsystem`, `sys_name`,
`tag`, `parent`), explicitly passing `None` is equivalent to omitting the
keyword — no filter is appended and the keyword is not forwarded to
`match_property`. -/
theorem c10_none_keyword_is_omitted (e : Enumerator)
    (kw : List (String × PyVal)) :
    ((∀ p ∈ kw, p.1 ≠ "subsystem") →
        e.match' (("subsystem", PyVal.vnone) :: kw) = e.match' kw) ∧
    ((∀ p ∈ kw, p.1 ≠ "sys_name") →
        e.match' (("sys_name", PyVal.vnone) :: kw) = e.match' kw) ∧
    ((∀ p ∈ kw, p.1 ≠ "tag") →
        e.match' (("tag", PyVal.vnone) :: kw) = e.match' kw) ∧
    ((∀ p ∈ kw, p.1 ≠ "parent") →
        e.match' (("parent", PyVal.vnone) :: kw) = e.match' kw) := by
  refine ⟨fun h => ?_, fun h => ?_, fun h => ?_, fun h => ?_⟩ <;>
    rw [match'_eq, match'_eq, routedFilters_cons_none _ kw (by decide) h]

/-- C10 witness: passing each recognized keyword as `None` next to an
ordinary property keyword. -/
theorem c10_none_keyword_is_omitted_witness :
    ((⟨⟨0⟩, []⟩ : Enumerator).match'
        [("subsystem", PyVal.vnone), ("ID_TYPE", PyVal.vstr "disk")]
      = (⟨⟨0⟩, []⟩ : Enumerator).match' [("ID_TYPE", PyVal.vstr "disk")]) ∧
    ((⟨⟨0⟩, []⟩ : Enumerator).match'
        [("sys_name", PyVal.vnone), ("ID_TYPE", PyVal.vstr "disk")]
      = (⟨⟨0⟩, []⟩ : Enumerator).match' [("ID_TYPE", PyVal.vstr "disk")]) ∧
    ((⟨⟨0⟩, []⟩ : Enumerator).match'
        [("tag", PyVal.vnone), ("ID_TYPE", PyVal.vstr "disk")]
      = (⟨⟨0⟩, []⟩ : Enumerator).match' [("ID_TYPE", PyVal.vstr "disk")]) ∧
    ((⟨⟨0⟩, []⟩ : Enumerator).match'
        [("parent", PyVal.vnone), ("ID_TYPE", PyVal.vstr "disk")]
      = (⟨⟨0⟩, []⟩ : Enumerator).match' [("ID_TYPE", PyVal.vstr "disk")]) :=
  ⟨(c10_none_keyword_is_omitted _ _).1 (by decide),
   (c10_none_keyword_is_omitted _ _).2.1 (by decide),
   (c10_none_keyword_is_omitted _ _).2.2.1 (by decide),
   (c10_none_keyword_is_omitted _ _).2.2.2 (by decide)⟩

theorem count_resolve_calls (x : NativeCall) (l : List Device)
    (h : ∀ s, x ≠ NativeCall.from_sys_path s) :
    (l.map fun d => NativeCall.from_sys_path d.syspath).count x = 0 := by
  rw [List.count_eq_zero]
  intro hmem
  rw [List.mem_map] at hmem
  obtain ⟨d, _, hd⟩ := hmem
  exact h d.syspath hd.symm

/-- C6: the native scan and list-head retrieval are performed exactly once at
the start of each iteration and never at construction — the constructor's
trace contains no scan or list-retrieval call, while each run of `__iter__`
begins with exactly one `udev_enumerate_scan_devices` followed by exactly one
`udev_enumerate_get_list_entry`, so re-iterating performs an independent scan
each time. -/
theorem c6_scan_once_per_iteration (arg : PyVal) (e : Enumerator)
    (reg : Registry) :
    ((Enumerator_init arg).1.count NativeCall.udev_enumerate_scan_devices = 0 ∧
     (Enumerator_init arg).1.count NativeCall.udev_enumerate_get_list_entry = 0) ∧
    ((Enumerator_iter e reg).1.take 2
        = [NativeCall.udev_enumerate_scan_devices,
           NativeCall.udev_enumerate_get_list_entry] ∧
     (Enumerator_iter e reg).1.count NativeCall.udev_enumerate_scan_devices = 1 ∧
     (Enumerator_iter e reg).1.count NativeCall.udev_enumerate_get_list_entry = 1) := by
  refine ⟨⟨?_, ?_⟩, rfl, ?_, ?_⟩
  · cases arg <;> rfl
  · cases arg <;> rfl
  · show (NativeCall.udev_enumerate_scan_devices ::
        NativeCall.udev_enumerate_get_list_entry ::
        (scanResult reg e.filters).map fun d =>
          NativeCall.from_sys_path d.syspath).count
        NativeCall.udev_enumerate_scan_devices = 1
    rw [List.count_cons, List.count_cons,
      count_resolve_calls _ _ (fun _ h => NativeCall.noConfusion h)]
    rfl
  · show (NativeCall.udev_enumerate_scan_devices ::
        NativeCall.udev_enumerate_get_list_entry ::
        (scanResult reg e.filters).map fun d =>
          NativeCall.from_sys_path d.syspath).count
        NativeCall.udev_enumerate_get_list_entry = 1
    rw [List.count_cons, List.count_cons,
      count_resolve_calls _ _ (fun _ h => NativeCall.noConfusion h)]
    rfl
